import Mathlib

/-!
Verification of the terminal screen-state engine (`TerminalApi.cpp`).

Shallow embedding: `Terminal` methods become Lean functions over an explicit
`TermState`.  Cell coordinates are `Int` (mirroring the signed `SHORT`
coordinates of the source); a buffer row is a total function `Int → Cell`.
Collaborators that live outside the translated file (`Viewport`, `TextBuffer`,
the SGR stack) are modelled from the specification, as marked in their doc
comments.
-/

set_option maxHeartbeats 1000000

/-- A text attribute: the "pen" state carried by every cell (foreground and
background color reference, style flags, hyperlink id). -/
structure TextAttribute where
  fg : Nat
  bg : Nat
  flags : Nat
  hyperlinkId : Nat
  deriving DecidableEq, Repr

/-- One buffer position: glyph plus its `TextAttribute`. -/
structure Cell where
  glyph : Char
  attr : TextAttribute
  deriving DecidableEq, Repr

/-- A blank (space) cell carrying the given attribute. -/
def blankCell (a : TextAttribute) : Cell :=
  { glyph := ' ', attr := a }

/-- Cursor presentation state: position (buffer-absolute), visibility flag,
blink-allowed flag, on/off phase flag. -/
structure Cursor where
  pos : Int × Int
  isVisible : Bool
  blinkingAllowed : Bool
  isOn : Bool
  deriving DecidableEq, Repr

/-- Modelled from the spec: a `Viewport` is a rectangle (origin plus
width/height) over the buffer's coordinate space, stored with exclusive
right/bottom edges. -/
structure TermViewport where
  left : Int
  top : Int
  right : Int
  bottom : Int
  deriving DecidableEq, Repr

namespace TermViewport

/-- Viewport height (bottom is exclusive). -/
def height (v : TermViewport) : Int := v.bottom - v.top

/-- Viewport width (right is exclusive). -/
def width (v : TermViewport) : Int := v.right - v.left

/-- Right edge, exclusive. -/
def rightExclusive (v : TermViewport) : Int := v.right

/-- Modelled from the spec: clamping of a coordinate into the viewport's
bounds (inclusive right/bottom cells). -/
def clamp (v : TermViewport) (p : Int × Int) : Int × Int :=
  (max v.left (min p.1 (v.right - 1)), max v.top (min p.2 (v.bottom - 1)))

end TermViewport

/-- An entry of the SGR (graphics-rendition) stack: a saved attribute snapshot
plus the list of fields the selector requested saved; an empty list means
"save everything". -/
inductive AttrField where
  | foreground
  | background
  | styleFlags
  | hyperlink
  deriving DecidableEq, Repr

/-- Modelled from the spec: an attribute-stack entry is a saved
`TextAttribute` plus a mask of which semantic fields were requested saved. -/
structure AttrStackEntry where
  attr : TextAttribute
  fields : List AttrField
  deriving DecidableEq, Repr

/-- Replace one semantic field of `cur` with the value saved in `snap`. -/
def applyAttrField (snap : TextAttribute) (cur : TextAttribute) : AttrField → TextAttribute
  | .foreground => { cur with fg := snap.fg }
  | .background => { cur with bg := snap.bg }
  | .styleFlags => { cur with flags := snap.flags }
  | .hyperlink => { cur with hyperlinkId := snap.hyperlinkId }

/-- Modelled from the spec: popping merges the snapshot's selected fields onto
the current attributes; an entry with an empty mask restores everything. -/
def mergeAttrEntry (e : AttrStackEntry) (cur : TextAttribute) : TextAttribute :=
  match e.fields with
  | [] => e.attr
  | fs => fs.foldl (fun acc f => applyAttrField e.attr acc f) cur

/-- Modelled from the spec: `SgrStack::Pop` — pops the most recent snapshot if
any and merges it onto the given attributes; popping an empty stack yields the
attributes passed in unchanged. -/
def sgrStackPop : List AttrStackEntry → TextAttribute → List AttrStackEntry × TextAttribute
  | [], cur => ([], cur)
  | e :: rest, cur => (rest, mergeAttrEntry e cur)

/-- The scrollable character buffer: cells addressed by (row, column), the
current "pen" attributes, and the buffer dimensions. -/
structure TermBuffer where
  cells : Int → Int → Cell
  currentAttributes : TextAttribute
  width : Int
  height : Int

/-- The whole terminal state used by the translated operations. -/
structure TermState where
  buffer : TermBuffer
  mutableViewport : TermViewport
  cursor : Cursor
  scrollOffset : Int
  sgrStack : List AttrStackEntry

namespace Terminal

/-- `Terminal::SetCursorPosition`: adds the viewport origin to the relative
coordinates, clamps the result to the viewport, and stores it as the
buffer-absolute cursor position. -/
def SetCursorPosition (x y : Int) (s : TermState) : TermState :=
  let viewport := s.mutableViewport
  let absoluteX := viewport.left + x
  let absoluteY := viewport.top + y
  let newPos := viewport.clamp (absoluteX, absoluteY)
  { s with cursor := { s.cursor with pos := newPos } }

/-- `Terminal::GetCursorPosition`: reads the absolute cursor position and
subtracts the viewport origin. -/
def GetCursorPosition (s : TermState) : Int × Int :=
  let absoluteCursorPos := s.cursor.pos
  let viewport := s.mutableViewport
  (absoluteCursorPos.1 - viewport.left, absoluteCursorPos.2 - viewport.top)

/-- `Terminal::EnableCursorBlinking`: sets the blink-allowed flag to the
argument and always turns the cursor's on/off phase flag on. -/
def EnableCursorBlinking (enable : Bool) (s : TermState) : TermState :=
  let s := { s with cursor := { s.cursor with blinkingAllowed := enable } }
  { s with cursor := { s.cursor with isOn := true } }

/-- `Terminal::PushGraphicsRendition`: pushes the buffer's current attributes
with the given selector onto the SGR stack. -/
def PushGraphicsRendition (options : List AttrField) (s : TermState) : TermState :=
  { s with sgrStack := { attr := s.buffer.currentAttributes, fields := options } :: s.sgrStack }

/-- `Terminal::PopGraphicsRendition`: pops the SGR stack and stores the merge
result as the buffer's current attributes. -/
def PopGraphicsRendition (s : TermState) : TermState :=
  let current := s.buffer.currentAttributes
  let popped := sgrStackPop s.sgrStack current
  { s with
    sgrStack := popped.1
    buffer := { s.buffer with currentAttributes := popped.2 } }

end Terminal

/-- C7: `SetCursorPosition (x, y)` followed by `GetCursorPosition` returns the
input clamped into `[0, width) × [0, height)`; out-of-range inputs are clamped
rather than rejected, and only the cursor changes — buffer, viewport, scroll
offset and SGR stack are untouched. -/
theorem setCursor_getCursor_clamps (s : TermState) (x y : Int)
    (hw : 1 ≤ s.mutableViewport.width) (hh : 1 ≤ s.mutableViewport.height) :
    Terminal.GetCursorPosition (Terminal.SetCursorPosition x y s) =
      (max 0 (min x (s.mutableViewport.width - 1)),
       max 0 (min y (s.mutableViewport.height - 1))) ∧
    0 ≤ (Terminal.GetCursorPosition (Terminal.SetCursorPosition x y s)).1 ∧
    (Terminal.GetCursorPosition (Terminal.SetCursorPosition x y s)).1 < s.mutableViewport.width ∧
    0 ≤ (Terminal.GetCursorPosition (Terminal.SetCursorPosition x y s)).2 ∧
    (Terminal.GetCursorPosition (Terminal.SetCursorPosition x y s)).2 < s.mutableViewport.height ∧
    (Terminal.SetCursorPosition x y s).buffer = s.buffer ∧
    (Terminal.SetCursorPosition x y s).mutableViewport = s.mutableViewport ∧
    (Terminal.SetCursorPosition x y s).scrollOffset = s.scrollOffset ∧
    (Terminal.SetCursorPosition x y s).sgrStack = s.sgrStack := by
  refine ⟨?_, ?_, ?_, ?_, ?_, rfl, rfl, rfl, rfl⟩ <;>
    simp only [Terminal.SetCursorPosition, Terminal.GetCursorPosition, TermViewport.clamp,
      TermViewport.width, TermViewport.height, Prod.mk.injEq] at * <;>
    omega

/-- Witness for C7 at a concrete state and input. -/
theorem setCursor_getCursor_clamps_witness :
    Terminal.GetCursorPosition (Terminal.SetCursorPosition 7 (-3)
      { buffer := { cells := fun _ _ => blankCell ⟨0, 0, 0, 0⟩,
                    currentAttributes := ⟨0, 0, 0, 0⟩, width := 5, height := 4 },
        mutableViewport := { left := 0, top := 0, right := 5, bottom := 4 },
        cursor := { pos := (0, 0), isVisible := true, blinkingAllowed := true, isOn := true },
        scrollOffset := 0, sgrStack := [] }) = (4, 0) := by
  have h := setCursor_getCursor_clamps
    { buffer := { cells := fun _ _ => blankCell ⟨0, 0, 0, 0⟩,
                  currentAttributes := ⟨0, 0, 0, 0⟩, width := 5, height := 4 },
      mutableViewport := { left := 0, top := 0, right := 5, bottom := 4 },
      cursor := { pos := (0, 0), isVisible := true, blinkingAllowed := true, isOn := true },
      scrollOffset := 0, sgrStack := [] }
    7 (-3) (by decide) (by decide)
  rw [h.1]
  decide

/-- C10: `EnableCursorBlinking enable` sets the blink-allowed flag to the
argument and unconditionally forces the cursor's on/off phase to On — even
when disabling blinking — leaving position and visibility untouched. -/
theorem enableCursorBlinking_sets_on (enable : Bool) (s : TermState) :
    (Terminal.EnableCursorBlinking enable s).cursor.blinkingAllowed = enable ∧
    (Terminal.EnableCursorBlinking enable s).cursor.isOn = true ∧
    (Terminal.EnableCursorBlinking enable s).cursor.pos = s.cursor.pos ∧
    (Terminal.EnableCursorBlinking enable s).cursor.isVisible = s.cursor.isVisible ∧
    (Terminal.EnableCursorBlinking enable s).buffer = s.buffer ∧
    (Terminal.EnableCursorBlinking enable s).mutableViewport = s.mutableViewport := by
  exact ⟨rfl, rfl, rfl, rfl, rfl, rfl⟩

/-- C8: the attribute stack round-trips — `PushGraphicsRendition` with the
full-field (empty) selector followed by `PopGraphicsRendition` restores
exactly the pushed attributes as the buffer's current attributes and leaves
the stack as it was; and `PopGraphicsRendition` on an empty stack is an
identity on the whole state. -/
theorem pushPop_graphicsRendition_roundtrip (s : TermState) :
    (Terminal.PopGraphicsRendition (Terminal.PushGraphicsRendition [] s)).buffer.currentAttributes
        = s.buffer.currentAttributes ∧
    (Terminal.PopGraphicsRendition (Terminal.PushGraphicsRendition [] s)).sgrStack = s.sgrStack ∧
    (s.sgrStack = [] → Terminal.PopGraphicsRendition s = s) := by
  refine ⟨rfl, rfl, fun h => ?_⟩
  cases s with
  | mk b vp cur so stack =>
    obtain rfl : stack = [] := h
    cases b with
    | mk cells attrs w hgt => rfl

/-- Witness for C8 at a concrete state with an empty stack. -/
theorem pushPop_graphicsRendition_roundtrip_witness :
    (Terminal.PopGraphicsRendition (Terminal.PushGraphicsRendition []
      { buffer := { cells := fun _ _ => blankCell ⟨0, 0, 0, 0⟩,
                    currentAttributes := ⟨3, 5, 7, 9⟩, width := 5, height := 4 },
        mutableViewport := { left := 0, top := 0, right := 5, bottom := 4 },
        cursor := { pos := (0, 0), isVisible := true, blinkingAllowed := true, isOn := true },
        scrollOffset := 0, sgrStack := [] })).buffer.currentAttributes = ⟨3, 5, 7, 9⟩ ∧
    Terminal.PopGraphicsRendition
      { buffer := { cells := fun _ _ => blankCell ⟨0, 0, 0, 0⟩,
                    currentAttributes := ⟨3, 5, 7, 9⟩, width := 5, height := 4 },
        mutableViewport := { left := 0, top := 0, right := 5, bottom := 4 },
        cursor := { pos := (0, 0), isVisible := true, blinkingAllowed := true, isOn := true },
        scrollOffset := 0, sgrStack := [] } =
      { buffer := { cells := fun _ _ => blankCell ⟨0, 0, 0, 0⟩,
                    currentAttributes := ⟨3, 5, 7, 9⟩, width := 5, height := 4 },
        mutableViewport := { left := 0, top := 0, right := 5, bottom := 4 },
        cursor := { pos := (0, 0), isVisible := true, blinkingAllowed := true, isOn := true },
        scrollOffset := 0, sgrStack := [] } := by
  have h := pushPop_graphicsRendition_roundtrip
    { buffer := { cells := fun _ _ => blankCell ⟨0, 0, 0, 0⟩,
                  currentAttributes := ⟨3, 5, 7, 9⟩, width := 5, height := 4 },
      mutableViewport := { left := 0, top := 0, right := 5, bottom := 4 },
      cursor := { pos := (0, 0), isVisible := true, blinkingAllowed := true, isOn := true },
      scrollOffset := 0, sgrStack := [] }
  exact ⟨h.1, h.2.2 rfl⟩

/-- The taskbar progress states (`DispatchTypes::TaskbarState`). -/
inductive TaskbarState where
  | Clear
  | Set
  | Indeterminate
  | Error
  | Paused
  deriving DecidableEq, Repr

/-- The fixed minimum progress floor used for the Error/Paused states
("10 in our case"). -/
def TaskbarMinProgress : Nat := 10

/-- Taskbar session state: the stored state and progress value, whether a
progress-changed handler is registered, and how many times it has fired. -/
structure TaskbarData where
  taskbarState : TaskbarState
  taskbarProgress : Nat
  hasProgressHandler : Bool
  notifyCount : Nat
  deriving DecidableEq, Repr

/-- `Terminal::SetTaskbarProgress`: overwrites the stored state, updates the
progress value according to the new state, then fires the registered
progress-changed notification. -/
def Terminal.SetTaskbarProgress (state : TaskbarState) (progress : Nat) (d : TaskbarData) :
    TaskbarData :=
  let d := { d with taskbarState := state }
  let d :=
    match state with
    | .Clear => { d with taskbarProgress := 0 }
    | .Set => { d with taskbarProgress := progress }
    | .Indeterminate => d
    | .Error | .Paused =>
      if progress = 0 then
        if d.taskbarProgress = 0 then { d with taskbarProgress := TaskbarMinProgress } else d
      else
        { d with taskbarProgress := progress }
  if d.hasProgressHandler then { d with notifyCount := d.notifyCount + 1 } else d

/-- The progress value the claim's transition table prescribes for
`SetTaskbarProgress` starting from stored progress `cur`. -/
def taskbarProgressTable (state : TaskbarState) (progress : Nat) (cur : Nat) : Nat :=
  match state with
  | .Clear => 0
  | .Set => progress
  | .Indeterminate => cur
  | .Error | .Paused =>
    if progress = 0 then (if cur = 0 then TaskbarMinProgress else cur) else progress

/-- C9: `SetTaskbarProgress` implements the claimed transition table on
(state, progress) — Clear forces 0, Set forces the argument, Indeterminate
leaves progress unchanged, Error/Paused with argument 0 keep the progress
unless it is 0 (then the minimum floor) and with a nonzero argument take the
argument — the stored state is always overwritten, and when a handler is
registered the change notification fires (exactly once) after the
transition. -/
theorem setTaskbarProgress_table (state : TaskbarState) (progress : Nat) (d : TaskbarData)
    (hreg : d.hasProgressHandler = true) :
    (Terminal.SetTaskbarProgress state progress d).taskbarState = state ∧
    (Terminal.SetTaskbarProgress state progress d).taskbarProgress =
      taskbarProgressTable state progress d.taskbarProgress ∧
    (Terminal.SetTaskbarProgress state progress d).notifyCount = d.notifyCount + 1 := by
  cases d with
  | mk ts tp reg nc =>
    obtain rfl : reg = true := hreg
    cases state <;>
      simp only [Terminal.SetTaskbarProgress, taskbarProgressTable] <;>
      first
      | simp
      | (split_ifs <;> simp_all)

/-- Witness for C9: an Error transition with argument 0 from progress 0
reaches the minimum floor and fires the notification. -/
theorem setTaskbarProgress_table_witness :
    (Terminal.SetTaskbarProgress .Error 0
        { taskbarState := .Clear, taskbarProgress := 0,
          hasProgressHandler := true, notifyCount := 4 }).taskbarState = .Error ∧
    (Terminal.SetTaskbarProgress .Error 0
        { taskbarState := .Clear, taskbarProgress := 0,
          hasProgressHandler := true, notifyCount := 4 }).taskbarProgress = 10 ∧
    (Terminal.SetTaskbarProgress .Error 0
        { taskbarState := .Clear, taskbarProgress := 0,
          hasProgressHandler := true, notifyCount := 4 }).notifyCount = 5 := by
  have h := setTaskbarProgress_table .Error 0
    { taskbarState := .Clear, taskbarProgress := 0,
      hasProgressHandler := true, notifyCount := 4 } rfl
  exact ⟨h.1, h.2.1, h.2.2⟩

/-- Walk direction over a one-row rectangle. -/
inductive WalkDir where
  | leftToRight
  | rightToLeft
  deriving DecidableEq, Repr

/-- Modelled from the spec: `Viewport::DetermineWalkDirection` — if the target
rectangle lies to the right of (or overlaps forward into) the source, walk
right-to-left; otherwise walk left-to-right.  The insert/delete rectangles
are one row high and equally wide, so only the origin columns matter. -/
def determineWalkDirection (srcX tgtX : Int) : WalkDir :=
  if srcX < tgtX then .rightToLeft else .leftToRight

/-- Write one cell of a row (the effect of `TextBuffer::Write` with a
single-cell iterator). -/
def writeCellAt (r : Int → Cell) (x : Int) (c : Cell) : Int → Cell :=
  fun y => if y = x then c else r y

/-- Left-to-right walk of the copy loop: step `i` (for `i = 0, …, n-1` in
increasing order) reads the row as mutated so far at `srcX + i` and writes the
cell at `tgtX + i`; the recursion performs step `n-1` last. -/
def copyCellsLTR (r : Int → Cell) (srcX tgtX : Int) : Nat → (Int → Cell)
  | 0 => r
  | n + 1 =>
    let rPrev := copyCellsLTR r srcX tgtX n
    writeCellAt rPrev (tgtX + n) (rPrev (srcX + n))

/-- Right-to-left walk of the copy loop: steps run for `i = n-1` down to `0`,
each reading the row as mutated so far; the recursion performs the rightmost
step first, then recurses on the rest. -/
def copyCellsRTL (r : Int → Cell) (srcX tgtX : Int) : Nat → (Int → Cell)
  | 0 => r
  | n + 1 => copyCellsRTL (writeCellAt r (tgtX + n) (r (srcX + n))) srcX tgtX n

/-- The `do { copy one cell } while (walk in bounds)` loop shared by
`DeleteCharacter` and `InsertCharacter`: the body executes at least once even
for an empty rectangle, and otherwise once per cell of the `w`-cell one-row
rectangles, walking in the direction chosen from the two origins. -/
def copyRect (r : Int → Cell) (srcX tgtX : Int) (w : Nat) : Int → Cell :=
  match determineWalkDirection srcX tgtX with
  | .leftToRight => copyCellsLTR r srcX tgtX (max w 1)
  | .rightToLeft => copyCellsRTL r srcX tgtX (max w 1)

/-- Oracle following the spec's words: copy the `w`-cell source run into a
temporary buffer first, then write it over the target run, so no read ever
sees a cell the copy itself overwrote. -/
def oracleCopyRun (r : Int → Cell) (srcX tgtX : Int) (w : Nat) : Int → Cell :=
  fun x => if tgtX ≤ x ∧ x < tgtX + w then r (srcX + (x - tgtX)) else r x

/-- Write `n` blank cells carrying attribute `a` starting at column `x` (the
effect of writing an `OutputCellIterator(UNICODE_SPACE, attr, n)`). -/
def writeBlanks (r : Int → Cell) (x : Int) (n : Nat) (a : TextAttribute) : Int → Cell :=
  fun y => if x ≤ y ∧ y < x + n then blankCell a else r y

/-- Replace one whole row of the buffer. -/
def updateRow (b : TermBuffer) (y : Int) (row : Int → Cell) : TermBuffer :=
  { b with cells := fun z => if z = y then row else b.cells z }

/-- When the target starts at or left of the source, the left-to-right
in-place walk computes exactly the oracle's result: every read still sees the
original value because writes trail the reads. -/
theorem copyCellsLTR_eq_oracle (r : Int → Cell) (srcX tgtX : Int) (h : tgtX ≤ srcX) :
    ∀ (n : Nat) (x : Int), copyCellsLTR r srcX tgtX n x = oracleCopyRun r srcX tgtX n x := by
  intro n
  induction n with
  | zero =>
    intro x
    simp only [copyCellsLTR, oracleCopyRun, Nat.cast_zero]
    rw [if_neg (by omega)]
  | succ n ih =>
    intro x
    simp only [copyCellsLTR, writeCellAt, ih]
    simp only [oracleCopyRun]
    split_ifs <;> first | rfl | (congr 1; omega)

/-- When the source starts at or left of the target, the right-to-left
in-place walk computes exactly the oracle's result. -/
theorem copyCellsRTL_eq_oracle (srcX tgtX : Int) (h : srcX ≤ tgtX) :
    ∀ (n : Nat) (r : Int → Cell) (x : Int),
      copyCellsRTL r srcX tgtX n x = oracleCopyRun r srcX tgtX n x := by
  intro n
  induction n with
  | zero =>
    intro r x
    simp only [copyCellsRTL, oracleCopyRun, Nat.cast_zero]
    rw [if_neg (by omega)]
  | succ n ih =>
    intro r x
    simp only [copyCellsRTL, ih]
    simp only [oracleCopyRun, writeCellAt]
    split_ifs <;> first | rfl | (congr 1; omega)

/-- The in-place copy loop equals the temporary-buffer oracle for every
nonempty one-row rectangle, in the walk direction the code chooses. -/
theorem copyRect_eq_oracle (r : Int → Cell) (srcX tgtX : Int) (w : Nat) (hw : 1 ≤ w) :
    copyRect r srcX tgtX w = oracleCopyRun r srcX tgtX w := by
  funext x
  have hmax : max w 1 = w := by omega
  by_cases h : srcX < tgtX
  · simp only [copyRect, determineWalkDirection, if_pos h, hmax]
    exact copyCellsRTL_eq_oracle srcX tgtX (le_of_lt h) w r x
  · simp only [copyRect, determineWalkDirection, if_neg h, hmax]
    exact copyCellsLTR_eq_oracle r srcX tgtX (by omega) w x

/-- `Terminal::DeleteCharacter count`: copies the one-row run reaching from
`count` cells right of the cursor to the viewport's right edge onto the run
starting at the cursor, cell by cell in the walk direction determined from
the two origins.  `none` models the paths that throw before any write: a
count that does not fit in a SHORT, or a source width whose narrowing
conversion fails (negative, or above SHORT range). -/
def Terminal.DeleteCharacter (count : Nat) (s : TermState) : Option TermState :=
  if count > 32767 then none else
  let cursorPos := s.cursor.pos
  let dist : Int := count
  let copyToX := cursorPos.1
  let copyFromX := cursorPos.1 + dist
  let sourceWidth := s.mutableViewport.rightExclusive - copyFromX
  if sourceWidth < 0 ∨ sourceWidth > 32767 then none else
  let newRow := copyRect (s.buffer.cells cursorPos.2) copyFromX copyToX sourceWidth.toNat
  some { s with buffer := updateRow s.buffer cursorPos.2 newRow }

/-- `Terminal::InsertCharacter count`: copies the one-row run reaching from
the cursor to the viewport's right edge onto the run starting `count` cells
right of the cursor (same walk-direction logic as delete), then fills the
`count` cells starting at the cursor with blanks carrying the buffer's
current attributes. -/
def Terminal.InsertCharacter (count : Nat) (s : TermState) : Option TermState :=
  if count > 32767 then none else
  let cursorPos := s.cursor.pos
  let dist : Int := count
  let copyFromX := cursorPos.1
  let copyToX := cursorPos.1 + dist
  let sourceWidth := s.mutableViewport.rightExclusive - copyFromX
  if sourceWidth < 0 ∨ sourceWidth > 32767 then none else
  let copied := copyRect (s.buffer.cells cursorPos.2) copyFromX copyToX sourceWidth.toNat
  let newRow := writeBlanks copied cursorPos.1 count s.buffer.currentAttributes
  some { s with buffer := updateRow s.buffer cursorPos.2 newRow }

/-- C1: for every `DeleteCharacter count` and `InsertCharacter count` call
whose one-row source and target rectangles overlap (`count` less than the
run width, which makes the runs nonempty and intersecting), the in-place
cell-by-cell copy equals the oracle that first copies the source run into a
temporary buffer: the operation succeeds and the resulting buffer is exactly
the source row shifted through `oracleCopyRun`, so no character is duplicated
or lost. -/
theorem runShift_overlap_safe (s : TermState) (count : Nat) (hc : count ≤ 32767) :
    ((count : Int) < s.mutableViewport.right - (s.cursor.pos.1 + (count : Int)) →
      s.mutableViewport.right - (s.cursor.pos.1 + (count : Int)) ≤ 32767 →
      Terminal.DeleteCharacter count s = some { s with buffer :=
          (updateRow s.buffer s.cursor.pos.2
            (oracleCopyRun (s.buffer.cells s.cursor.pos.2) (s.cursor.pos.1 + (count : Int))
              s.cursor.pos.1
              (s.mutableViewport.right - (s.cursor.pos.1 + (count : Int))).toNat)) }) ∧
    ((count : Int) < s.mutableViewport.right - s.cursor.pos.1 →
      s.mutableViewport.right - s.cursor.pos.1 ≤ 32767 →
      Terminal.InsertCharacter count s = some { s with buffer :=
          (updateRow s.buffer s.cursor.pos.2
            (writeBlanks
              (oracleCopyRun (s.buffer.cells s.cursor.pos.2) s.cursor.pos.1
                (s.cursor.pos.1 + (count : Int))
                (s.mutableViewport.right - s.cursor.pos.1).toNat)
              s.cursor.pos.1 count s.buffer.currentAttributes)) }) := by
  constructor
  · intro hov hle
    simp only [Terminal.DeleteCharacter, TermViewport.rightExclusive]
    rw [if_neg (by omega), if_neg (by omega)]
    rw [copyRect_eq_oracle _ _ _ _ (by omega)]
  · intro hov hle
    simp only [Terminal.InsertCharacter, TermViewport.rightExclusive]
    rw [if_neg (by omega), if_neg (by omega)]
    rw [copyRect_eq_oracle _ _ _ _ (by omega)]

/-- A sample attribute distinguished by its foreground index. -/
def demoAttr (n : Nat) : TextAttribute := ⟨n, 0, 0, 0⟩

/-- A sample row: the listed glyphs in columns `0, 1, …`, each carrying the
attribute numbered column-plus-one; every other cell blank with
`demoAttr 0`. -/
def demoRow (gs : List Char) : Int → Cell := fun x =>
  if h : 0 ≤ x ∧ x.toNat < gs.length then
    { glyph := gs.get ⟨x.toNat, h.2⟩, attr := demoAttr (x.toNat + 1) }
  else blankCell (demoAttr 0)

/-- A sample terminal: row 0 holds the given glyphs, the viewport is
`[0, w) × [0, h)` at the buffer origin, the pen attribute is `demoAttr 99`,
and the cursor sits at `(cx, 0)`. -/
def demoState (gs : List Char) (w h cx : Int) : TermState :=
  { buffer := { cells := fun y => if y = 0 then demoRow gs else fun _ => blankCell (demoAttr 0),
                currentAttributes := demoAttr 99, width := w, height := h },
    mutableViewport := { left := 0, top := 0, right := w, bottom := h },
    cursor := { pos := (cx, 0), isVisible := true, blinkingAllowed := true, isOn := true },
    scrollOffset := 0, sgrStack := [] }

/-- The cell at `(y, x)` of an operation's result (a placeholder blank if the
operation failed). -/
def cellAt (o : Option TermState) (y x : Int) : Cell :=
  match o with
  | some s => s.buffer.cells y x
  | none => blankCell (demoAttr 0)

/-- Witness for C1: both overlap implications applied to a concrete 3-wide
row with `count = 1`. -/
theorem runShift_overlap_safe_witness :
    Terminal.DeleteCharacter 1 (demoState ['a', 'b', 'c'] 3 1 0) =
      some { demoState ['a', 'b', 'c'] 3 1 0 with buffer :=
          (updateRow (demoState ['a', 'b', 'c'] 3 1 0).buffer 0
            (oracleCopyRun ((demoState ['a', 'b', 'c'] 3 1 0).buffer.cells 0) 1 0 2)) } ∧
    Terminal.InsertCharacter 1 (demoState ['a', 'b', 'c'] 3 1 0) =
      some { demoState ['a', 'b', 'c'] 3 1 0 with buffer :=
          (updateRow (demoState ['a', 'b', 'c'] 3 1 0).buffer 0
            (writeBlanks
              (oracleCopyRun ((demoState ['a', 'b', 'c'] 3 1 0).buffer.cells 0) 0 1 3)
              0 1 (demoState ['a', 'b', 'c'] 3 1 0).buffer.currentAttributes)) } := by
  have h := runShift_overlap_safe (demoState ['a', 'b', 'c'] 3 1 0) 1 (by omega)
  exact ⟨h.1 (by decide) (by decide), h.2 (by decide) (by decide)⟩

/-- Counterexample for C2: on row `[a,b,c,d,e]` with the cursor before `c`
(column 2, 7-wide viewport), `DeleteCharacter 2` leaves `e` — not `d` — at
the cursor: the source run starts `count` cells right of the cursor, so the
line shifts left by two, not one as the claim's expected row `[a,b,d,e,?]`
requires. -/
theorem runShift_example_delete_cex :
    (cellAt (Terminal.DeleteCharacter 2 (demoState ['a', 'b', 'c', 'd', 'e'] 7 1 2)) 0 2).glyph
        = 'e' ∧
    ('e' : Char) ≠ 'd' := by
  constructor
  · rfl
  · decide

/-- C2 (amended): with row `[a,b,c,d,e]` and the cursor before `c`,
`InsertCharacter 2` yields `[a,b, , ,c,d]` — shifted `c,d` keep their
original attributes and the two inserted blanks carry the pen attribute —
while `DeleteCharacter 2` yields `[a,b,e, , ]`: the run starting two right
of the cursor shifts left by two with each cell retaining its original
attributes (here `e` and the blanks shifted in from beyond the text), and
the delete itself blanks nothing. -/
theorem runShift_example_amended :
    cellAt (Terminal.InsertCharacter 2 (demoState ['a', 'b', 'c', 'd', 'e'] 7 1 2)) 0 0
        = { glyph := 'a', attr := demoAttr 1 } ∧
    cellAt (Terminal.InsertCharacter 2 (demoState ['a', 'b', 'c', 'd', 'e'] 7 1 2)) 0 1
        = { glyph := 'b', attr := demoAttr 2 } ∧
    cellAt (Terminal.InsertCharacter 2 (demoState ['a', 'b', 'c', 'd', 'e'] 7 1 2)) 0 2
        = blankCell (demoAttr 99) ∧
    cellAt (Terminal.InsertCharacter 2 (demoState ['a', 'b', 'c', 'd', 'e'] 7 1 2)) 0 3
        = blankCell (demoAttr 99) ∧
    cellAt (Terminal.InsertCharacter 2 (demoState ['a', 'b', 'c', 'd', 'e'] 7 1 2)) 0 4
        = { glyph := 'c', attr := demoAttr 3 } ∧
    cellAt (Terminal.InsertCharacter 2 (demoState ['a', 'b', 'c', 'd', 'e'] 7 1 2)) 0 5
        = { glyph := 'd', attr := demoAttr 4 } ∧
    cellAt (Terminal.DeleteCharacter 2 (demoState ['a', 'b', 'c', 'd', 'e'] 7 1 2)) 0 0
        = { glyph := 'a', attr := demoAttr 1 } ∧
    cellAt (Terminal.DeleteCharacter 2 (demoState ['a', 'b', 'c', 'd', 'e'] 7 1 2)) 0 1
        = { glyph := 'b', attr := demoAttr 2 } ∧
    cellAt (Terminal.DeleteCharacter 2 (demoState ['a', 'b', 'c', 'd', 'e'] 7 1 2)) 0 2
        = { glyph := 'e', attr := demoAttr 5 } ∧
    cellAt (Terminal.DeleteCharacter 2 (demoState ['a', 'b', 'c', 'd', 'e'] 7 1 2)) 0 3
        = blankCell (demoAttr 0) ∧
    cellAt (Terminal.DeleteCharacter 2 (demoState ['a', 'b', 'c', 'd', 'e'] 7 1 2)) 0 4
        = blankCell (demoAttr 0) := by
  refine ⟨rfl, rfl, rfl, rfl, rfl, rfl, rfl, rfl, rfl, rfl, rfl⟩

/-- Counterexample for C3: in a 5-wide viewport with the cursor at column 3,
`count = 4` exceeds the remaining width 2.  `DeleteCharacter 4` does not
truncate and complete — its source width is negative, so the narrowing
conversion fails before any write (`none`).  `InsertCharacter 4` completes,
but the target rectangle is not truncated: the shifted `d` lands at column 7,
outside the viewport row segment `[0, 5)`. -/
theorem runShift_truncation_cex :
    Terminal.DeleteCharacter 4 (demoState ['a', 'b', 'c', 'd', 'e'] 5 1 3) = none ∧
    cellAt (Terminal.InsertCharacter 4 (demoState ['a', 'b', 'c', 'd', 'e'] 5 1 3)) 0 7
        = { glyph := 'd', attr := demoAttr 4 } ∧
    (demoState ['a', 'b', 'c', 'd', 'e'] 5 1 3).mutableViewport.right = 5 := by
  refine ⟨rfl, rfl, rfl⟩

/-- C3 (amended): when `count` exceeds the remaining row width between the
cursor and the viewport's right edge, only the source rectangle is bounded by
the right edge.  `DeleteCharacter` computes a negative source width and fails
before writing; `InsertCharacter` succeeds, keeps the full source width for
the target at offset `count`, and therefore writes the shifted run wholly
beyond the viewport's right edge (the blank fill still starts at the
cursor). -/
theorem runShift_truncation_amended (s : TermState) (count : Nat) (hc : count ≤ 32767)
    (hbig : s.mutableViewport.right - s.cursor.pos.1 < (count : Int))
    (hpos : 1 ≤ s.mutableViewport.right - s.cursor.pos.1)
    (hle : s.mutableViewport.right - s.cursor.pos.1 ≤ 32767) :
    Terminal.DeleteCharacter count s = none ∧
    Terminal.InsertCharacter count s = some { s with buffer :=
        (updateRow s.buffer s.cursor.pos.2
          (writeBlanks
            (oracleCopyRun (s.buffer.cells s.cursor.pos.2) s.cursor.pos.1
              (s.cursor.pos.1 + (count : Int))
              (s.mutableViewport.right - s.cursor.pos.1).toNat)
            s.cursor.pos.1 count s.buffer.currentAttributes)) } ∧
    s.mutableViewport.right < s.cursor.pos.1 + (count : Int) := by
  refine ⟨?_, ?_, by omega⟩
  · simp only [Terminal.DeleteCharacter, TermViewport.rightExclusive]
    rw [if_neg (by omega), if_pos (by omega)]
  · simp only [Terminal.InsertCharacter, TermViewport.rightExclusive]
    rw [if_neg (by omega), if_neg (by omega)]
    rw [copyRect_eq_oracle _ _ _ _ (by omega)]

/-- Witness for C3's amended theorem at the counterexample input. -/
theorem runShift_truncation_amended_witness :
    Terminal.DeleteCharacter 4 (demoState ['a', 'b', 'c', 'd', 'e'] 5 1 3) = none ∧
    Terminal.InsertCharacter 4 (demoState ['a', 'b', 'c', 'd', 'e'] 5 1 3) =
      some { demoState ['a', 'b', 'c', 'd', 'e'] 5 1 3 with buffer :=
          (updateRow (demoState ['a', 'b', 'c', 'd', 'e'] 5 1 3).buffer 0
            (writeBlanks
              (oracleCopyRun ((demoState ['a', 'b', 'c', 'd', 'e'] 5 1 3).buffer.cells 0) 3 7 2)
              3 4 (demoState ['a', 'b', 'c', 'd', 'e'] 5 1 3).buffer.currentAttributes)) } ∧
    (demoState ['a', 'b', 'c', 'd', 'e'] 5 1 3).mutableViewport.right < 7 := by
  have h := runShift_truncation_amended (demoState ['a', 'b', 'c', 'd', 'e'] 5 1 3) 4
    (by omega) (by decide) (by decide) (by decide)
  exact ⟨h.1, h.2.1, h.2.2⟩

/-- `DispatchTypes::EraseType`: the erase modes the dispatcher can pass. -/
inductive EraseType where
  | ToEnd
  | FromBeginning
  | All
  | Scrollback
  deriving DecidableEq, Repr

/-- Write `n` blanks with the current attributes into row `y` starting at
column `x` (the erase-fill write; a non-positive length writes nothing, which
is unreachable for a clamped cursor).  The source's wrap-flag suppression has
no observable counterpart in this cell model. -/
def writeRowBlanks (s : TermState) (y x : Int) (n : Int) : TermState :=
  { s with buffer :=
      (updateRow s.buffer y
        (writeBlanks (s.buffer.cells y) x n.toNat s.buffer.currentAttributes)) }

/-- `Terminal::EraseInLine`: erases within the cursor's row — from the line
start through the cursor, from the cursor to the right edge, or the whole
line — with blanks carrying the current attributes; any other mode returns
`false` with no mutation. -/
def Terminal.EraseInLine (eraseType : EraseType) (s : TermState) : Bool × TermState :=
  let cursorPos := s.cursor.pos
  let viewport := s.mutableViewport
  match eraseType with
  | .FromBeginning =>
    (true, writeRowBlanks s cursorPos.2 0 (cursorPos.1 - viewport.left + 1))
  | .ToEnd =>
    (true, writeRowBlanks s cursorPos.2 cursorPos.1 (viewport.rightExclusive - cursorPos.1))
  | .All =>
    (true, writeRowBlanks s cursorPos.2 viewport.left (viewport.rightExclusive - viewport.left))
  | _ => (false, s)

/-- Modelled from the spec: the per-row measure of rightmost text — one past
the final non-space glyph among columns `0 … n-1`, or `0` when they are all
spaces (only the glyph decides blankness). -/
def measureRight (row : Int → Cell) : Nat → Nat
  | 0 => 0
  | n + 1 => if (row (n : Int)).glyph = ' ' then measureRight row n else n + 1

/-- Modelled from the spec: `TextBuffer::GetLastNonSpaceCharacter` bounded to
a rectangle — starting at the rectangle's bottom row and backing up one row
at a time, it returns the coordinate of the final non-space cell of the first
non-blank row found, and `(0, 0)` when every row up to the bottom is blank
("nothing to clear").  The bound used is the rectangle's bottom row only: per
the spec the Scrollback erase must cover all stale content below the visible
region, so the backward search continues through the rows above the
rectangle. -/
def lastNonSpaceCharacter (b : TermBuffer) : Nat → Int × Int
  | 0 =>
    if measureRight (b.cells 0) b.width.toNat = 0 then (0, 0)
    else ((measureRight (b.cells 0) b.width.toNat : Int) - 1, 0)
  | y + 1 =>
    if measureRight (b.cells ((y : Int) + 1)) b.width.toNat = 0 then
      lastNonSpaceCharacter b y
    else ((measureRight (b.cells ((y : Int) + 1)) b.width.toNat : Int) - 1, (y : Int) + 1)

/-- Modelled from the spec: `TextBuffer::IncrementCircularBuffer` — rotate the
row addressing by one, so each row moves up one position and the recycled
bottom row is lazily cleared to blanks with the current attributes. -/
def incrementCircularBuffer (b : TermBuffer) : TermBuffer :=
  { b with cells := fun y =>
      if y = b.height - 1 then (fun _ => blankCell b.currentAttributes) else b.cells (y + 1) }

/-- The `for (i = 0; i < delta; i++) IncrementCircularBuffer()` loop. -/
def incrementN (b : TermBuffer) : Nat → TermBuffer
  | 0 => b
  | n + 1 => incrementN (incrementCircularBuffer b) n

/-- Modelled from the spec: the `ScrollRows(top, height, -top)` call — a
row-range rotation by `-top` positions over the rows `0 … top+height-1`: the
viewport rows `top … top+height-1` become rows `0 … height-1`, and the
displaced scrollback rows `0 … top-1` wrap to rows `height … top+height-1`
(the stale content the caller must erase).  Rows at or below nothing of the
range are untouched. -/
def scrollRowsUp (b : TermBuffer) (top h : Int) : TermBuffer :=
  { b with cells := fun y =>
      if 0 ≤ y ∧ y < top + h then b.cells ((y + top) % (top + h)) else b.cells y }

/-- Modelled from the spec: `ROW::Reset` — the whole row becomes blanks
carrying the given attribute. -/
def rowReset (b : TermBuffer) (y : Int) (a : TextAttribute) : TermBuffer :=
  { b with cells := fun z => if z = y then (fun _ => blankCell a) else b.cells z }

/-- The `for (i = eraseStart; i <= eraseEnd; i++) Reset(attrs)` loop, with
fuel `(eraseEnd + 1 - eraseStart).toNat`. -/
def resetRowsFrom (b : TermBuffer) (start : Int) (a : TextAttribute) : Nat → TermBuffer
  | 0 => b
  | n + 1 => resetRowsFrom (rowReset b start a) (start + 1) a n

/-- `Terminal::EraseInDisplay`: the All branch pushes the visible content
into scrollback by relocating the viewport below the last non-blank row,
rotating the circular buffer when the new window would fall past the bottom
of the buffer; the Scrollback branch rotates the visible rows to the top of
the buffer, resets the stale rows left below them, zeroes the scroll offset
and rebuilds the viewport at the origin; both restore the cursor at its old
viewport-relative position against the new viewport.  Any other mode returns
`false` with no mutation.  The scroll-changed notification carries no state
here and is omitted. -/
def Terminal.EraseInDisplay (eraseType : EraseType) (s : TermState) : Bool × TermState :=
  let cursorPos := s.cursor.pos
  let relativeCursor :=
    (cursorPos.1 - s.mutableViewport.left, cursorPos.2 - s.mutableViewport.top)
  let newWinLeft := s.mutableViewport.left
  let newWinRight := s.mutableViewport.rightExclusive
  match eraseType with
  | .All =>
    let coordLastChar := lastNonSpaceCharacter s.buffer (s.mutableViewport.bottom - 1).toNat
    if coordLastChar.1 = 0 ∧ coordLastChar.2 = 0 then (true, s)
    else
      let sNewTop := coordLastChar.2 + 1
      let delta := (sNewTop + s.mutableViewport.height) - s.buffer.height
      let buf := incrementN s.buffer delta.toNat
      let sNewTopFinal := sNewTop - delta.toNat
      let newWin : TermViewport :=
        { left := newWinLeft, top := sNewTopFinal, right := newWinRight,
          bottom := sNewTopFinal + s.mutableViewport.height }
      let s1 := { s with buffer := buf, mutableViewport := newWin }
      (true, Terminal.SetCursorPosition relativeCursor.1 relativeCursor.2 s1)
  | .Scrollback =>
    let scrollFromY := s.mutableViewport.top
    let buf := scrollRowsUp s.buffer scrollFromY s.mutableViewport.height
    let eraseStart := s.mutableViewport.height
    let eraseEnd := (lastNonSpaceCharacter buf (s.mutableViewport.bottom - 1).toNat).2
    let buf2 := resetRowsFrom buf eraseStart buf.currentAttributes (eraseEnd + 1 - eraseStart).toNat
    let newWin : TermViewport :=
      { left := newWinLeft, top := 0, right := newWinRight,
        bottom := s.mutableViewport.height }
    let s1 := { s with buffer := buf2, mutableViewport := newWin, scrollOffset := 0 }
    (true, Terminal.SetCursorPosition relativeCursor.1 relativeCursor.2 s1)
  | _ => (false, s)

/-- C4: for every mode that is not one of the recognized erase types —
`EraseInLine` handles FromBeginning/ToEnd/All, `EraseInDisplay` handles
All/Scrollback — the operation returns `false` and the state is returned
exactly as it was: no cell write, no viewport move, no scroll-offset or
cursor change, since the mode test precedes every mutation. -/
theorem erase_invalid_mode_no_mutation (s : TermState) :
    Terminal.EraseInLine .Scrollback s = (false, s) ∧
    Terminal.EraseInDisplay .FromBeginning s = (false, s) ∧
    Terminal.EraseInDisplay .ToEnd s = (false, s) := by
  exact ⟨rfl, rfl, rfl⟩

/-- `measureRight` is zero exactly when every measured glyph is a space. -/
theorem measureRight_eq_zero_iff (row : Int → Cell) (n : Nat) :
    measureRight row n = 0 ↔ ∀ i : Nat, i < n → (row (i : Int)).glyph = ' ' := by
  induction n with
  | zero => simp [measureRight]
  | succ n ih =>
    simp only [measureRight]
    by_cases h : (row (n : Int)).glyph = ' '
    · rw [if_pos h, ih]
      constructor
      · intro hall i hi
        rcases Nat.lt_succ_iff_lt_or_eq.mp hi with hlt | hEq
        · exact hall i hlt
        · rw [hEq]; exact h
      · intro hall i hi
        exact hall i (Nat.lt_succ_of_lt hi)
    · rw [if_neg h]
      constructor
      · intro hz
        exact absurd hz (Nat.succ_ne_zero n)
      · intro hall
        exact absurd (hall n (Nat.lt_succ_self n)) h

/-- `measureRight` only looks at the first `n` cells of the row. -/
theorem measureRight_congr (r1 r2 : Int → Cell) (n : Nat)
    (h : ∀ i : Nat, i < n → r1 (i : Int) = r2 (i : Int)) :
    measureRight r1 n = measureRight r2 n := by
  induction n with
  | zero => rfl
  | succ n ih =>
    simp only [measureRight, h n (Nat.lt_succ_self n)]
    rw [ih (fun i hi => h i (Nat.lt_succ_of_lt hi))]

/-- When every row up to the bottom bound is blank, the last-non-space query
answers `(0, 0)`. -/
theorem lastNonSpace_of_all_blank (b : TermBuffer) (bottom : Nat)
    (h : ∀ y : Nat, y ≤ bottom → measureRight (b.cells (y : Int)) b.width.toNat = 0) :
    lastNonSpaceCharacter b bottom = (0, 0) := by
  induction bottom with
  | zero =>
    have h0 := h 0 (le_refl 0)
    push_cast at h0
    simp only [lastNonSpaceCharacter]
    rw [if_pos h0]
  | succ n ih =>
    have hm : measureRight (b.cells ((n : Int) + 1)) b.width.toNat = 0 := by
      have h2 := h (n + 1) (le_refl _)
      push_cast at h2
      exact h2
    simp only [lastNonSpaceCharacter]
    rw [if_pos hm]
    exact ih (fun y hy => h y (Nat.le_succ_of_le hy))

/-- When row `k` is the topmost-from-the-bottom non-blank row (all rows
strictly between `k` and the bottom bound blank), the query answers the
measured end of row `k`. -/
theorem lastNonSpace_eq_of_found (b : TermBuffer) (bottom k : Nat) (hk : k ≤ bottom)
    (hnz : measureRight (b.cells (k : Int)) b.width.toNat ≠ 0)
    (habove : ∀ z : Nat, k < z → z ≤ bottom →
      measureRight (b.cells (z : Int)) b.width.toNat = 0) :
    lastNonSpaceCharacter b bottom =
      ((measureRight (b.cells (k : Int)) b.width.toNat : Int) - 1, (k : Int)) := by
  induction bottom with
  | zero =>
    obtain rfl : k = 0 := Nat.le_zero.mp hk
    simp only [lastNonSpaceCharacter, Nat.cast_zero]
    rw [if_neg (by exact_mod_cast hnz)]
  | succ n ih =>
    by_cases hkn : k = n + 1
    · subst hkn
      push_cast at hnz ⊢
      simp only [lastNonSpaceCharacter]
      rw [if_neg hnz]
    · have hk2 : k ≤ n := by omega
      have hblank : measureRight (b.cells ((n : Int) + 1)) b.width.toNat = 0 := by
        have h2 := habove (n + 1) (by omega) (le_refl _)
        push_cast at h2
        exact h2
      simp only [lastNonSpaceCharacter]
      rw [if_pos hblank]
      exact ih hk2 (fun z h1 h2 => habove z h1 (Nat.le_succ_of_le h2))

/-- Any non-blank row at or below the bottom bound lies at or below the row
the query reports. -/
theorem lastNonSpace_snd_ge (b : TermBuffer) (bottom y : Nat) (hy : y ≤ bottom)
    (hnz : measureRight (b.cells (y : Int)) b.width.toNat ≠ 0) :
    (y : Int) ≤ (lastNonSpaceCharacter b bottom).2 := by
  induction bottom with
  | zero =>
    obtain rfl : y = 0 := Nat.le_zero.mp hy
    simp only [lastNonSpaceCharacter, Nat.cast_zero]
    rw [if_neg (by exact_mod_cast hnz)]
  | succ n ih =>
    simp only [lastNonSpaceCharacter]
    by_cases hb : measureRight (b.cells ((n : Int) + 1)) b.width.toNat = 0
    · rw [if_pos hb]
      have hy2 : y ≤ n := by
        by_contra hgt
        have hEq : y = n + 1 := by omega
        subst hEq
        push_cast at hnz
        exact hnz hb
      exact ih hy2
    · rw [if_neg hb]
      have : (y : Int) ≤ (n : Int) + 1 := by exact_mod_cast hy
      simpa using this

/-- The query's reported row is between `0` and the bottom bound. -/
theorem lastNonSpace_snd_bounds (b : TermBuffer) (bottom : Nat) :
    0 ≤ (lastNonSpaceCharacter b bottom).2 ∧
      (lastNonSpaceCharacter b bottom).2 ≤ (bottom : Int) := by
  induction bottom with
  | zero =>
    simp only [lastNonSpaceCharacter]
    split_ifs <;> simp
  | succ n ih =>
    simp only [lastNonSpaceCharacter]
    split_ifs with hb
    · exact ⟨ih.1, le_trans ih.2 (by push_cast; omega)⟩
    · refine ⟨by positivity, by simp⟩

/-- Every row strictly between the reported row and the bottom bound is
blank. -/
theorem lastNonSpace_blank_above (b : TermBuffer) (bottom z : Nat)
    (h1 : (lastNonSpaceCharacter b bottom).2 < (z : Int)) (h2 : z ≤ bottom) :
    measureRight (b.cells (z : Int)) b.width.toNat = 0 := by
  by_contra hnz
  have := lastNonSpace_snd_ge b bottom z h2 hnz
  omega

/-- Repeated circular increments preserve the buffer dimensions and the
current attributes. -/
theorem incrementN_dims (n : Nat) :
    ∀ b : TermBuffer, (incrementN b n).height = b.height ∧
      (incrementN b n).width = b.width ∧
      (incrementN b n).currentAttributes = b.currentAttributes := by
  induction n with
  | zero => exact fun b => ⟨rfl, rfl, rfl⟩
  | succ n ih => exact fun b => ih (incrementCircularBuffer b)

/-- A row that stays inside the buffer after `n` circular increments shows
the content that used to sit `n` rows below it. -/
theorem incrementN_cells_lt (n : Nat) :
    ∀ (b : TermBuffer) (y x : Int), y + n < b.height →
      (incrementN b n).cells y x = b.cells (y + n) x := by
  induction n with
  | zero =>
    intro b y x h
    simp [incrementN]
  | succ n ih =>
    intro b y x h
    have h2 : y + (n : Int) < (incrementCircularBuffer b).height := by
      simp only [incrementCircularBuffer]
      push_cast at h
      omega
    rw [show incrementN b (n + 1) = incrementN (incrementCircularBuffer b) n from rfl,
      ih (incrementCircularBuffer b) y x h2]
    simp only [incrementCircularBuffer]
    rw [if_neg (by push_cast at h ⊢; omega)]
    congr 1
    push_cast
    ring

/-- The rows recycled by `n` circular increments are blank with the current
attributes. -/
theorem incrementN_cells_blank (n : Nat) :
    ∀ (b : TermBuffer) (y x : Int), b.height - n ≤ y → y < b.height →
      (incrementN b n).cells y x = blankCell b.currentAttributes := by
  induction n with
  | zero =>
    intro b y x h1 h2
    exact absurd h2 (by push_cast at h1; omega)
  | succ n ih =>
    intro b y x h1 h2
    rw [show incrementN b (n + 1) = incrementN (incrementCircularBuffer b) n from rfl]
    by_cases hc : b.height - n ≤ y
    · exact ih (incrementCircularBuffer b) y x (by simpa [incrementCircularBuffer] using hc)
        (by simpa [incrementCircularBuffer] using h2)
    · have hEq : y + (n : Int) = b.height - 1 := by push_cast at h1; omega
      rw [incrementN_cells_lt n (incrementCircularBuffer b) y x
        (by simp only [incrementCircularBuffer]; omega)]
      simp only [incrementCircularBuffer]
      rw [if_pos hEq]

/-- The reset loop blanks (with the given attribute) exactly the rows
`start … start+n-1` and keeps every other cell. -/
theorem resetRowsFrom_cells (a : TextAttribute) (n : Nat) :
    ∀ (b : TermBuffer) (start z x : Int),
      (resetRowsFrom b start a n).cells z x =
        if start ≤ z ∧ z < start + n then blankCell a else b.cells z x := by
  induction n with
  | zero =>
    intro b start z x
    rw [if_neg (by push_cast; omega)]
    rfl
  | succ n ih =>
    intro b start z x
    rw [show resetRowsFrom b start a (n + 1) = resetRowsFrom (rowReset b start a) (start + 1) a n
      from rfl, ih]
    simp only [rowReset]
    split_ifs <;> first | rfl | (exfalso; omega)

/-- The reset loop preserves the buffer dimensions and current attributes. -/
theorem resetRowsFrom_dims (a : TextAttribute) (n : Nat) :
    ∀ (b : TermBuffer) (start : Int),
      (resetRowsFrom b start a n).currentAttributes = b.currentAttributes ∧
      (resetRowsFrom b start a n).width = b.width ∧
      (resetRowsFrom b start a n).height = b.height := by
  induction n with
  | zero => exact fun b start => ⟨rfl, rfl, rfl⟩
  | succ n ih => exact fun b start => ih (rowReset b start a) (start + 1)

/-- Rows `0 … h-1` of the rotated buffer show the old viewport rows. -/
theorem scrollRowsUp_cells_vis (b : TermBuffer) (top h y : Int)
    (htop : 0 ≤ top) (hy : 0 ≤ y) (hyh : y < h) :
    (scrollRowsUp b top h).cells y = b.cells (y + top) := by
  simp only [scrollRowsUp]
  have hcond : 0 ≤ y ∧ y < top + h := ⟨hy, by omega⟩
  have hmod : (y + top) % (top + h) = y + top := Int.emod_eq_of_lt (by omega) (by omega)
  rw [if_pos hcond, hmod]

/-- Rows `h … top+h-1` of the rotated buffer show the displaced old
scrollback rows `0 … top-1`. -/
theorem scrollRowsUp_cells_stale (b : TermBuffer) (top h y : Int)
    (htop : 0 ≤ top) (hh : 0 < h) (hy : h ≤ y) (hyh : y < top + h) :
    (scrollRowsUp b top h).cells y = b.cells (y - h) := by
  simp only [scrollRowsUp]
  have hcond : 0 ≤ y ∧ y < top + h := ⟨by omega, hyh⟩
  have hmod : (y + top) % (top + h) = y - h := by
    rw [show y + top = (y - h) + 1 * (top + h) by ring, Int.add_mul_emod_self]
    exact Int.emod_eq_of_lt (by omega) (by omega)
  rw [if_pos hcond, hmod]

/-- C5: after `EraseInDisplay Scrollback`, the relocated viewport rows
`0 … height-1` show exactly the text and attributes the old viewport showed;
every formerly non-blank scrollback row — now below the visible region — has
been reset to blanks carrying the current attributes, and all the relocated
scrollback rows read blank within the buffer width; the scroll offset is `0`;
and the viewport is rebuilt at rows `[0, height)` with unchanged
left/right. -/
theorem eraseScrollback_spec (s : TermState)
    (htop : 0 ≤ s.mutableViewport.top)
    (hh : s.mutableViewport.top < s.mutableViewport.bottom) :
    (Terminal.EraseInDisplay .Scrollback s).1 = true ∧
    (∀ y x : Int, 0 ≤ y → y < s.mutableViewport.height →
      (Terminal.EraseInDisplay .Scrollback s).2.buffer.cells y x =
        s.buffer.cells (y + s.mutableViewport.top) x) ∧
    (∀ y x : Int, s.mutableViewport.height ≤ y →
      y < s.mutableViewport.top + s.mutableViewport.height →
      measureRight (s.buffer.cells (y - s.mutableViewport.height)) s.buffer.width.toNat ≠ 0 →
      (Terminal.EraseInDisplay .Scrollback s).2.buffer.cells y x =
        blankCell s.buffer.currentAttributes) ∧
    (∀ y x : Int, s.mutableViewport.height ≤ y →
      y < s.mutableViewport.top + s.mutableViewport.height →
      0 ≤ x → x < s.buffer.width →
      ((Terminal.EraseInDisplay .Scrollback s).2.buffer.cells y x).glyph = ' ') ∧
    (Terminal.EraseInDisplay .Scrollback s).2.scrollOffset = 0 ∧
    (Terminal.EraseInDisplay .Scrollback s).2.mutableViewport =
      { left := s.mutableViewport.left, top := 0, right := s.mutableViewport.right,
        bottom := s.mutableViewport.height } := by
  have hhgt : 0 < s.mutableViewport.height := by
    simp only [TermViewport.height]; omega
  have hbot : s.mutableViewport.top + s.mutableViewport.height = s.mutableViewport.bottom := by
    simp only [TermViewport.height]; omega
  have hbuf2 : (Terminal.EraseInDisplay .Scrollback s).2.buffer =
      resetRowsFrom (scrollRowsUp s.buffer s.mutableViewport.top s.mutableViewport.height)
        s.mutableViewport.height
        (scrollRowsUp s.buffer s.mutableViewport.top s.mutableViewport.height).currentAttributes
        (((lastNonSpaceCharacter
            (scrollRowsUp s.buffer s.mutableViewport.top s.mutableViewport.height)
            (s.mutableViewport.bottom - 1).toNat).2 + 1 - s.mutableViewport.height).toNat) := rfl
  refine ⟨rfl, ?_, ?_, ?_, rfl, rfl⟩
  · intro y x hy0 hyh
    rw [hbuf2, resetRowsFrom_cells, if_neg (by omega),
      scrollRowsUp_cells_vis s.buffer _ _ y htop hy0 hyh]
  · intro y x hyh hytop hnz
    have hst := scrollRowsUp_cells_stale s.buffer s.mutableViewport.top s.mutableViewport.height
      y htop hhgt hyh hytop
    have hcast : ((y.toNat : Int)) = y := Int.toNat_of_nonneg (by omega)
    have hee := lastNonSpace_snd_ge
      (scrollRowsUp s.buffer s.mutableViewport.top s.mutableViewport.height)
      (s.mutableViewport.bottom - 1).toNat y.toNat (by omega)
      (by rw [hcast, hst]; exact hnz)
    rw [hcast] at hee
    rw [hbuf2, resetRowsFrom_cells, if_pos ⟨hyh, by omega⟩]
    exact rfl
  · intro y x hyh hytop hx0 hxw
    have hst := scrollRowsUp_cells_stale s.buffer s.mutableViewport.top s.mutableViewport.height
      y htop hhgt hyh hytop
    have hcast : ((y.toNat : Int)) = y := Int.toNat_of_nonneg (by omega)
    have hcastx : ((x.toNat : Int)) = x := Int.toNat_of_nonneg hx0
    rw [hbuf2, resetRowsFrom_cells]
    by_cases hcase : s.mutableViewport.height ≤ y ∧
        y < s.mutableViewport.height +
          ((((lastNonSpaceCharacter
              (scrollRowsUp s.buffer s.mutableViewport.top s.mutableViewport.height)
              (s.mutableViewport.bottom - 1).toNat).2 + 1 -
            s.mutableViewport.height).toNat : Int))
    · rw [if_pos hcase]; rfl
    · rw [if_neg hcase]
      have hygt : (lastNonSpaceCharacter
          (scrollRowsUp s.buffer s.mutableViewport.top s.mutableViewport.height)
          (s.mutableViewport.bottom - 1).toNat).2 < (y.toNat : Int) := by
        rw [hcast]; omega
      have hblank := lastNonSpace_blank_above
        (scrollRowsUp s.buffer s.mutableViewport.top s.mutableViewport.height)
        (s.mutableViewport.bottom - 1).toNat y.toNat hygt (by omega)
      rw [measureRight_eq_zero_iff] at hblank
      have hw : (scrollRowsUp s.buffer s.mutableViewport.top s.mutableViewport.height).width
          = s.buffer.width := rfl
      have hglyph := hblank x.toNat (by rw [hw]; omega)
      rw [hcast, hcastx] at hglyph
      exact hglyph

/-- A one-column terminal with one scrollback row (`x`), one visible row
(`v`) under a viewport at rows `[1, 2)`, and a nonzero scroll offset. -/
def scrollbackDemo : TermState :=
  { buffer := { cells := fun y => if y = 0 then demoRow ['x']
                  else if y = 1 then demoRow ['v'] else fun _ => blankCell (demoAttr 0),
                currentAttributes := demoAttr 99, width := 1, height := 3 },
    mutableViewport := { left := 0, top := 1, right := 1, bottom := 2 },
    cursor := { pos := (0, 1), isVisible := true, blinkingAllowed := true, isOn := true },
    scrollOffset := 5, sgrStack := [] }

/-- Witness for C5 at `scrollbackDemo`: the visible `v` moves to row 0, the
formerly non-blank scrollback lands at row 1 reset to a pen-attribute blank,
the scroll offset drops to 0, and the viewport is rebuilt at `[0, 1)`. -/
theorem eraseScrollback_spec_witness :
    (Terminal.EraseInDisplay .Scrollback scrollbackDemo).1 = true ∧
    (Terminal.EraseInDisplay .Scrollback scrollbackDemo).2.buffer.cells 0 0 =
      { glyph := 'v', attr := demoAttr 1 } ∧
    (Terminal.EraseInDisplay .Scrollback scrollbackDemo).2.buffer.cells 1 0 =
      blankCell (demoAttr 99) ∧
    ((Terminal.EraseInDisplay .Scrollback scrollbackDemo).2.buffer.cells 1 0).glyph = ' ' ∧
    (Terminal.EraseInDisplay .Scrollback scrollbackDemo).2.scrollOffset = 0 ∧
    (Terminal.EraseInDisplay .Scrollback scrollbackDemo).2.mutableViewport =
      { left := 0, top := 0, right := 1, bottom := 1 } := by
  have h := eraseScrollback_spec scrollbackDemo (by decide) (by decide)
  refine ⟨h.1, ?_, ?_, ?_, h.2.2.2.2.1, ?_⟩
  · exact (h.2.1 0 0 (by decide) (by decide)).trans (by decide)
  · exact (h.2.2.1 1 0 (by decide) (by decide) (by decide)).trans (by decide)
  · exact h.2.2.2.1 1 0 (by decide) (by decide) (by decide) (by decide)
  · exact (h.2.2.2.2.2).trans (by decide)

/-- One `EraseInDisplay All` call, on the branch where there is something to
clear, spelled out: the buffer is rotated `delta` times, and the viewport is
rebuilt below the last non-blank row with the cursor restored against it. -/
theorem eraseAll_eq (s : TermState)
    (hne : ¬((lastNonSpaceCharacter s.buffer (s.mutableViewport.bottom - 1).toNat).1 = 0 ∧
      (lastNonSpaceCharacter s.buffer (s.mutableViewport.bottom - 1).toNat).2 = 0)) :
    Terminal.EraseInDisplay .All s = (true,
      Terminal.SetCursorPosition (s.cursor.pos.1 - s.mutableViewport.left)
        (s.cursor.pos.2 - s.mutableViewport.top)
        { s with
          buffer := incrementN s.buffer
            ((lastNonSpaceCharacter s.buffer (s.mutableViewport.bottom - 1).toNat).2 + 1 +
              s.mutableViewport.height - s.buffer.height).toNat,
          mutableViewport :=
            { left := s.mutableViewport.left,
              top := (lastNonSpaceCharacter s.buffer (s.mutableViewport.bottom - 1).toNat).2 + 1 -
                (((lastNonSpaceCharacter s.buffer (s.mutableViewport.bottom - 1).toNat).2 + 1 +
                  s.mutableViewport.height - s.buffer.height).toNat : Int),
              right := s.mutableViewport.right,
              bottom := (lastNonSpaceCharacter s.buffer (s.mutableViewport.bottom - 1).toNat).2 + 1 -
                (((lastNonSpaceCharacter s.buffer (s.mutableViewport.bottom - 1).toNat).2 + 1 +
                  s.mutableViewport.height - s.buffer.height).toNat : Int) +
                s.mutableViewport.height } }) := by
  simp only [Terminal.EraseInDisplay, TermViewport.rightExclusive]
  rw [if_neg hne]

/-- A non-`(0, 0)` answer of the last-non-space query comes from an actual
top-most-from-the-bottom non-blank row. -/
theorem lastNonSpace_found_form (b : TermBuffer) (bottom : Nat)
    (hne : lastNonSpaceCharacter b bottom ≠ (0, 0)) :
    ∃ k : Nat, k ≤ bottom ∧ measureRight (b.cells (k : Int)) b.width.toNat ≠ 0 ∧
      lastNonSpaceCharacter b bottom =
        ((measureRight (b.cells (k : Int)) b.width.toNat : Int) - 1, (k : Int)) := by
  induction bottom with
  | zero =>
    by_cases hm : measureRight (b.cells 0) b.width.toNat = 0
    · exact absurd (by simp only [lastNonSpaceCharacter]; rw [if_pos hm]) hne
    · refine ⟨0, le_refl 0, by exact_mod_cast hm, ?_⟩
      simp only [lastNonSpaceCharacter, Nat.cast_zero]
      rw [if_neg hm]
  | succ n ih =>
    by_cases hm : measureRight (b.cells ((n : Int) + 1)) b.width.toNat = 0
    · have hstep : lastNonSpaceCharacter b (n + 1) = lastNonSpaceCharacter b n := by
        simp only [lastNonSpaceCharacter]
        rw [if_pos hm]
      rw [hstep] at hne ⊢
      obtain ⟨k, hk, hnz, heq⟩ := ih hne
      exact ⟨k, Nat.le_succ_of_le hk, hnz, heq⟩
    · refine ⟨n + 1, le_refl _, by push_cast; exact hm, ?_⟩
      simp only [lastNonSpaceCharacter]
      rw [if_neg hm]
      push_cast
      rfl

/-- Building a viewport from fields equal to an existing viewport's fields
gives that viewport back. -/
theorem TermViewport.eq_of_fields (v : TermViewport) (l t r bo : Int)
    (hl : l = v.left) (ht : t = v.top) (hr : r = v.right) (hb : bo = v.bottom) :
    ({ left := l, top := t, right := r, bottom := bo } : TermViewport) = v := by
  subst hl; subst ht; subst hr; subst hb; rfl

/-- Restoring the cursor at its own viewport-relative position is the
identity when the cursor already sits inside the viewport. -/
theorem setCursor_of_clamped (s : TermState)
    (hx1 : s.mutableViewport.left ≤ s.cursor.pos.1)
    (hx2 : s.cursor.pos.1 < s.mutableViewport.right)
    (hy1 : s.mutableViewport.top ≤ s.cursor.pos.2)
    (hy2 : s.cursor.pos.2 < s.mutableViewport.bottom) :
    Terminal.SetCursorPosition (s.cursor.pos.1 - s.mutableViewport.left)
      (s.cursor.pos.2 - s.mutableViewport.top) s = s := by
  have hcx : max s.mutableViewport.left
      (min (s.mutableViewport.left + (s.cursor.pos.1 - s.mutableViewport.left))
        (s.mutableViewport.right - 1)) = s.cursor.pos.1 := by omega
  have hcy : max s.mutableViewport.top
      (min (s.mutableViewport.top + (s.cursor.pos.2 - s.mutableViewport.top))
        (s.mutableViewport.bottom - 1)) = s.cursor.pos.2 := by omega
  simp only [Terminal.SetCursorPosition, TermViewport.clamp, hcx, hcy]

/-- A row still inside the buffer after the rotation shows the shifted
content, measured identically. -/
theorem measureRight_incrementN_shift (b : TermBuffer) (dN : Nat) (z : Nat)
    (hz : (z : Int) + dN < b.height) :
    measureRight ((incrementN b dN).cells (z : Int)) (incrementN b dN).width.toNat =
      measureRight (b.cells ((z : Int) + dN)) b.width.toNat := by
  rw [(incrementN_dims dN b).2.1]
  exact measureRight_congr _ _ _ (fun i _ => incrementN_cells_lt dN b (z : Int) (i : Int) hz)

/-- A recycled row measures blank. -/
theorem measureRight_incrementN_recycled (b : TermBuffer) (dN : Nat) (z : Nat)
    (h1 : b.height - dN ≤ (z : Int)) (h2 : (z : Int) < b.height) :
    measureRight ((incrementN b dN).cells (z : Int)) (incrementN b dN).width.toNat = 0 := by
  rw [measureRight_eq_zero_iff]
  intro i _
  rw [incrementN_cells_blank dN b _ _ h1 h2]
  rfl

/-- `EraseInDisplay All` is the identity (returning `true`) on a state whose
viewport is well-formed within the buffer, whose cursor is inside the
viewport, and whose last-non-space scan either answers `(0, 0)` or points at
the row directly above the viewport: the recomputed top equals the current
top, so no rotation, no viewport movement and no cell change happens. -/
theorem eraseAll_noop (s : TermState)
    (hlr : s.mutableViewport.left < s.mutableViewport.right)
    (htb : s.mutableViewport.top < s.mutableViewport.bottom)
    (hbH : s.mutableViewport.bottom ≤ s.buffer.height)
    (hcx1 : s.mutableViewport.left ≤ s.cursor.pos.1)
    (hcx2 : s.cursor.pos.1 < s.mutableViewport.right)
    (hcy1 : s.mutableViewport.top ≤ s.cursor.pos.2)
    (hcy2 : s.cursor.pos.2 < s.mutableViewport.bottom)
    (hscan : lastNonSpaceCharacter s.buffer (s.mutableViewport.bottom - 1).toNat = (0, 0) ∨
      (lastNonSpaceCharacter s.buffer (s.mutableViewport.bottom - 1).toNat).2 + 1 =
        s.mutableViewport.top) :
    Terminal.EraseInDisplay .All s = (true, s) := by
  by_cases h0 : (lastNonSpaceCharacter s.buffer (s.mutableViewport.bottom - 1).toNat).1 = 0 ∧
      (lastNonSpaceCharacter s.buffer (s.mutableViewport.bottom - 1).toNat).2 = 0
  · simp only [Terminal.EraseInDisplay]
    rw [if_pos h0]
  · have htop2 : (lastNonSpaceCharacter s.buffer (s.mutableViewport.bottom - 1).toNat).2 + 1 =
        s.mutableViewport.top := by
      rcases hscan with h | h
      · exact absurd ⟨by rw [h], by rw [h]⟩ h0
      · exact h
    rw [eraseAll_eq s h0]
    have hd0 : ((lastNonSpaceCharacter s.buffer (s.mutableViewport.bottom - 1).toNat).2 + 1 +
        s.mutableViewport.height - s.buffer.height).toNat = 0 := by
      simp only [TermViewport.height]
      omega
    rw [hd0]
    have hvp : ({
        left := s.mutableViewport.left,
        top := ((lastNonSpaceCharacter s.buffer (s.mutableViewport.bottom - 1).toNat).2 + 1 -
          ((0 : Nat) : Int)),
        right := s.mutableViewport.right,
        bottom := ((lastNonSpaceCharacter s.buffer (s.mutableViewport.bottom - 1).toNat).2 + 1 -
          ((0 : Nat) : Int) + s.mutableViewport.height) } : TermViewport) = s.mutableViewport := by
      refine TermViewport.eq_of_fields _ _ _ _ _ rfl (by push_cast; omega) rfl ?_
      simp only [TermViewport.height]
      push_cast
      omega
    rw [hvp]
    simp only [incrementN]
    exact congrArg (Prod.mk true) (setCursor_of_clamped s hcx1 hcx2 hcy1 hcy2)

/-- C6 (amended): `EraseInDisplay All` is idempotent — on a well-formed state
(viewport nonempty and inside the buffer, every row below it blank) the first
call returns `true` and a second call with no intervening writes returns
`true` with the state unchanged: no viewport movement, no buffer rotation, no
cell change.  The mechanism differs from the claim, though: the second call
is a no-op because the recomputed top equals the current top (or, when the
buffer has no scrollback room, because the rotation discarded everything and
the query answers `(0, 0)`), not in general because the last-non-space query
answers `(0, 0)`. -/
theorem eraseAll_idempotent (s : TermState)
    (hlr : s.mutableViewport.left < s.mutableViewport.right)
    (htb : s.mutableViewport.top < s.mutableViewport.bottom)
    (ht0 : 0 ≤ s.mutableViewport.top)
    (hbH : s.mutableViewport.bottom ≤ s.buffer.height)
    (hbelow : ∀ y x : Int, s.mutableViewport.bottom ≤ y → 0 ≤ x → x < s.buffer.width →
      (s.buffer.cells y x).glyph = ' ') :
    (Terminal.EraseInDisplay .All s).1 = true ∧
    Terminal.EraseInDisplay .All (Terminal.EraseInDisplay .All s).2 =
      (true, (Terminal.EraseInDisplay .All s).2) := by
  by_cases h0 : (lastNonSpaceCharacter s.buffer (s.mutableViewport.bottom - 1).toNat).1 = 0 ∧
      (lastNonSpaceCharacter s.buffer (s.mutableViewport.bottom - 1).toNat).2 = 0
  · have hfst : Terminal.EraseInDisplay .All s = (true, s) := by
      simp only [Terminal.EraseInDisplay]
      rw [if_pos h0]
    rw [hfst]
    exact ⟨rfl, hfst⟩
  · obtain ⟨k, hk_le, hk_nz, hLform⟩ := lastNonSpace_found_form s.buffer
      (s.mutableViewport.bottom - 1).toNat
      (fun hEq => h0 ⟨by rw [hEq], by rw [hEq]⟩)
    have hL2 : (lastNonSpaceCharacter s.buffer (s.mutableViewport.bottom - 1).toNat).2 =
        (k : Int) := by rw [hLform]
    have hky : (k : Int) ≤ s.mutableViewport.bottom - 1 := by omega
    have hblankAbove : ∀ z : Nat, k < z →
        measureRight (s.buffer.cells (z : Int)) s.buffer.width.toNat = 0 := by
      intro z hz
      by_cases hzb : z ≤ (s.mutableViewport.bottom - 1).toNat
      · refine lastNonSpace_blank_above s.buffer _ z ?_ hzb
        rw [hL2]
        exact_mod_cast hz
      · rw [measureRight_eq_zero_iff]
        intro i hi
        exact hbelow (z : Int) (i : Int) (by omega) (by omega) (by omega)
    rw [eraseAll_eq s h0]
    refine ⟨rfl, ?_⟩
    rw [hL2]
    simp only [TermViewport.height]
    generalize hd : ((k : Int) + 1 + (s.mutableViewport.bottom - s.mutableViewport.top) -
      s.buffer.height).toNat = dN
    apply eraseAll_noop
    · dsimp only [Terminal.SetCursorPosition]
      exact hlr
    · dsimp only [Terminal.SetCursorPosition]
      omega
    · dsimp only [Terminal.SetCursorPosition]
      rw [(incrementN_dims dN s.buffer).1]
      omega
    · dsimp only [Terminal.SetCursorPosition, TermViewport.clamp]
      omega
    · dsimp only [Terminal.SetCursorPosition, TermViewport.clamp]
      omega
    · dsimp only [Terminal.SetCursorPosition, TermViewport.clamp]
      omega
    · dsimp only [Terminal.SetCursorPosition, TermViewport.clamp]
      omega
    · dsimp only [Terminal.SetCursorPosition]
      by_cases hall2 : ∀ z : Nat, z ≤ ((k : Int) + 1 - (dN : Int) +
          (s.mutableViewport.bottom - s.mutableViewport.top) - 1).toNat →
          measureRight ((incrementN s.buffer dN).cells (z : Int))
            (incrementN s.buffer dN).width.toNat = 0
      · exact Or.inl (lastNonSpace_of_all_blank _ _ hall2)
      · right
        have ht1 : (dN : Int) ≤ (k : Int) := by
          by_contra hgt
          apply hall2
          intro z hz
          by_cases hcase : (z : Int) + dN < s.buffer.height
          · rw [measureRight_incrementN_shift s.buffer dN z hcase]
            have hres := hblankAbove (z + dN) (by omega)
            push_cast at hres
            exact hres
          · exact measureRight_incrementN_recycled s.buffer dN z (by omega) (by omega)
        have hrowEq : measureRight ((incrementN s.buffer dN).cells (((k - dN : Nat) : Nat) : Int))
            (incrementN s.buffer dN).width.toNat =
            measureRight (s.buffer.cells (k : Int)) s.buffer.width.toNat := by
          rw [measureRight_incrementN_shift s.buffer dN (k - dN) (by omega)]
          have harg : (((k - dN : Nat) : Nat) : Int) + (dN : Int) = (k : Int) := by omega
          rw [harg]
        have hfound2 := lastNonSpace_eq_of_found (incrementN s.buffer dN)
          (((k : Int) + 1 - (dN : Int) + (s.mutableViewport.bottom - s.mutableViewport.top) -
            1).toNat) (k - dN)
          (by omega)
          (by rw [hrowEq]; exact hk_nz)
          (by
            intro z hz1 hz2
            by_cases hcase : (z : Int) + dN < s.buffer.height
            · rw [measureRight_incrementN_shift s.buffer dN z hcase]
              have hres := hblankAbove (z + dN) (by omega)
              push_cast at hres
              exact hres
            · exact measureRight_incrementN_recycled s.buffer dN z (by omega) (by omega))
        rw [hfound2]
        dsimp only
        omega

/-- A two-column, three-row terminal showing `wx` on its single visible row,
with empty scrollback room below. -/
def allDemo : TermState :=
  { buffer := { cells := fun y => if y = 0 then demoRow ['w', 'x']
                  else fun _ => blankCell (demoAttr 0),
                currentAttributes := demoAttr 99, width := 2, height := 3 },
    mutableViewport := { left := 0, top := 0, right := 2, bottom := 1 },
    cursor := { pos := (0, 0), isVisible := true, blinkingAllowed := true, isOn := true },
    scrollOffset := 0, sgrStack := [] }

/-- Counterexample for C6's stated mechanism: after `EraseInDisplay All` on
`allDemo`, the last-non-space query — run exactly as the second call runs it,
on the new viewport — still finds the `x` pushed into scrollback and answers
`(1, 0)`, not `(0, 0)`. -/
theorem eraseAll_idempotent_cex :
    lastNonSpaceCharacter (Terminal.EraseInDisplay .All allDemo).2.buffer
      (((Terminal.EraseInDisplay .All allDemo).2.mutableViewport.bottom - 1).toNat) = (1, 0) ∧
    ((1 : Int), (0 : Int)) ≠ ((0 : Int), (0 : Int)) := by
  exact ⟨rfl, by decide⟩

/-- Witness for C6's amended theorem at `allDemo`. -/
theorem eraseAll_idempotent_witness :
    (Terminal.EraseInDisplay .All allDemo).1 = true ∧
    Terminal.EraseInDisplay .All (Terminal.EraseInDisplay .All allDemo).2 =
      (true, (Terminal.EraseInDisplay .All allDemo).2) := by
  refine eraseAll_idempotent allDemo (by decide) (by decide) (by decide) (by decide) ?_
  intro y x hy hx1 hx2
  have hbv : allDemo.mutableViewport.bottom = 1 := rfl
  have hne : y ≠ 0 := by omega
  simp only [allDemo]
  rw [if_neg hne]
  rfl
